import Mathlib

/-!
Verification development for dm-data-conditional-masker (src/main.py).

The program applies conditional field-level masking to a list of JSON
records.  We embed the data model and the masking engine shallowly:

* A JSON value is the inductive type Value (null, bool, int, string,
  array, object).  A record, as in the Python source, is a dict from
  field names to values; we model it as an association list with
  Python-dict update semantics (replace in place when the key exists,
  append otherwise).

* The source evaluates each rule's condition string with Python's
  eval, passing the working record as the local scope.  We cannot embed
  CPython, so condition evaluation is a parameter
  ev : String -> Record -> Except EvalErr Value: given the condition
  text and the current record it either produces a value (whose Python
  truthiness gates the masking) or fails, as eval does, with a
  NameError (unresolved field reference), TypeError, SyntaxError, or
  some other exception.  Every theorem about the engine quantifies over
  ev, because the control flow of mask_data treats the evaluator as a
  black box: any exception is caught and the rule is skipped.

* Faker is nondeterministic, so value generation is likewise a
  parameter gen : String -> Except String String, mapping a masking
  type to the generated value or to an internal generator failure
  (an exception inside the faker call).
-/

set_option autoImplicit false

namespace DataMasker

/-- A JSON value, the type of record field contents and of parsed
configuration files. -/
inductive Value where
  | null : Value
  | bool (b : Bool) : Value
  | num (n : Int) : Value
  | str (s : String) : Value
  | arr (elems : List Value) : Value
  | obj (fields : List (String × Value)) : Value

/-- A record: a Python dict from field name to value, modelled as an
association list in insertion order. -/
abbrev Record := List (String × Value)

/-- Dictionary lookup: the value stored under a key, if present. -/
def Record.get : Record → String → Option Value
  | [], _ => none
  | (k, v) :: rest, key => if k = key then some v else Record.get rest key

/-- Python's `key in dict` membership test. -/
def Record.has (rec : Record) (key : String) : Bool :=
  (Record.get rec key).isSome

/-- Python dict assignment `rec[key] = v`: replace the value in place if
the key is present (keeping its position), otherwise append at the
end. -/
def Record.set : Record → String → Value → Record
  | [], key, v => [(key, v)]
  | (k, w) :: rest, key, v =>
    if k = key then (key, v) :: rest else (k, w) :: Record.set rest key v

/-- Python truthiness of a value, as used by `if eval(...):` on the
condition's result. -/
def truthy : Value → Bool
  | .null => false
  | .bool b => b
  | .num n => n != 0
  | .str s => s ≠ ""
  | .arr elems => !elems.isEmpty
  | .obj fields => !fields.isEmpty

/-- The kinds of exception Python's eval can raise on a condition:
NameError for an unresolved field reference, TypeError, SyntaxError for
a malformed expression, or anything else.  mask_data catches NameError
and Exception separately but both handlers just log and continue, so
the distinction never affects behaviour. -/
inductive EvalErr where
  | nameError : EvalErr
  | typeError : EvalErr
  | syntaxError : EvalErr
  | other : EvalErr

/-- A masking rule, the validated shape of one configuration entry:
a condition expression (a Python source string), a target field name,
and a masking type tag. -/
structure Rule where
  condition : String
  field : String
  masking_type : String

/-- The condition evaluator: Python eval applied to the condition text
with the working record as local scope.  Abstract, since the source
delegates to CPython. -/
abbrev Evaluator := String → Record → Except EvalErr Value

/-- The value generator: one faker call for a given masking type,
either a generated string or an internal faker exception. -/
abbrev Generator := String → Except String String

/-- The masking types recognised by apply_masking's dispatch chain. -/
def recognized_masking_types : List String :=
  ["name", "email", "address", "phone_number", "company", "ssn",
   "date", "city", "country", "text", "password"]

/-- One guarded faker call inside apply_masking's try block: the
generated value, or the sentinel MASKED_ERROR if the generator raised. -/
def genOrError (gen : Generator) (masking_type : String) : String :=
  match gen masking_type with
  | .ok v => v
  | .error _ => "MASKED_ERROR"

/-- ConditionalMasker.apply_masking: dispatch on the masking type
through the chain of comparisons of the source; a recognised type calls
the corresponding faker generator (internal failure caught and turned
into MASKED_ERROR), an unknown type logs a warning and returns the
sentinel MASKED. -/
def apply_masking (gen : Generator) (masking_type : String) : String :=
  if masking_type = "name" then genOrError gen masking_type
  else if masking_type = "email" then genOrError gen masking_type
  else if masking_type = "address" then genOrError gen masking_type
  else if masking_type = "phone_number" then genOrError gen masking_type
  else if masking_type = "company" then genOrError gen masking_type
  else if masking_type = "ssn" then genOrError gen masking_type
  else if masking_type = "date" then genOrError gen masking_type
  else if masking_type = "city" then genOrError gen masking_type
  else if masking_type = "country" then genOrError gen masking_type
  else if masking_type = "text" then genOrError gen masking_type
  else if masking_type = "password" then genOrError gen masking_type
  else "MASKED"

/-- The body of mask_data's inner rule loop for one rule: evaluate the
condition against the current working record (any exception is caught:
the rule is skipped and the record left as it was); if the result is
truthy and the target field exists in the record, overwrite it with a
freshly generated value; if the field is absent, log a warning and do
nothing. -/
def applyRule (ev : Evaluator) (gen : Generator)
    (masked_record : Record) (rule : Rule) : Record :=
  match ev rule.condition masked_record with
  | .error _ => masked_record
  | .ok v =>
    if truthy v then
      if Record.has masked_record rule.field then
        Record.set masked_record rule.field
          (.str (apply_masking gen rule.masking_type))
      else masked_record
    else masked_record

/-- The rule loop of mask_data for one record: every rule of the
configuration applied in order to the working copy. -/
def maskRecord (ev : Evaluator) (gen : Generator)
    (rules : List Rule) (rec : Record) : Record :=
  rules.foldl (applyRule ev gen) rec

/-- ConditionalMasker.mask_data: for each record of the input list,
copy it, run every rule over the copy, and append the finished copy to
the output list. -/
def mask_data (ev : Evaluator) (gen : Generator)
    (rules : List Rule) (data : List Record) : List Record :=
  data.map (maskRecord ev gen rules)

/-- A rule fires on a record when its condition evaluates without
exception to a truthy value and its target field is present, i.e.
exactly when applyRule performs a substitution. -/
def fires (ev : Evaluator) (rule : Rule) (rec : Record) : Prop :=
  ∃ v, ev rule.condition rec = .ok v ∧ truthy v = true ∧
    Record.has rec rule.field = true

/-!
Heap-level model of mask_data, used to state that the engine never
mutates the caller's records.  A store is a Python heap of record
objects; the caller's list holds addresses into it.  mask_data copies
each record (record.copy() allocates a fresh object at the end of the
store) and every dict assignment of the rule loop writes through the
copy's address, never through the original's.
-/

/-- The heap of record objects. -/
abbrev Store := List Record

/-- Dereference an address (an out-of-range address reads as empty,
which never arises for addresses handed out by the model). -/
def Store.read (s : Store) (a : Nat) : Record :=
  s.getD a []

/-- Overwrite the object at an address. -/
def Store.write (s : Store) (a : Nat) (rec : Record) : Store :=
  s.set a rec

/-- The rule-loop body of mask_data at heap level: the dict assignment
masked_record[field] = ... becomes a write through the working copy's
address. -/
def applyRuleStore (ev : Evaluator) (gen : Generator)
    (s : Store) (a : Nat) (rule : Rule) : Store :=
  match ev rule.condition (Store.read s a) with
  | .error _ => s
  | .ok v =>
    if truthy v then
      if Record.has (Store.read s a) rule.field then
        Store.write s a
          (Record.set (Store.read s a) rule.field
            (.str (apply_masking gen rule.masking_type)))
      else s
    else s

/-- The full rule loop over one working copy, at heap level. -/
def maskRecordStore (ev : Evaluator) (gen : Generator)
    (rules : List Rule) (s : Store) (a : Nat) : Store :=
  rules.foldl (fun st rule => applyRuleStore ev gen st a rule) s

/-- mask_data at heap level: the input is a list of addresses of the
caller's records; each iteration allocates a fresh copy
(masked_record = record.copy()), runs the rule loop on the copy, and
collects the copy's address into the output list.  Returns the final
heap and the output addresses. -/
def mask_data_store (ev : Evaluator) (gen : Generator)
    (rules : List Rule) : Store → List Nat → Store × List Nat
  | s, [] => (s, [])
  | s, a :: rest =>
    let aCopy := s.length
    let s1 := s ++ [Store.read s a]
    let s2 := maskRecordStore ev gen rules s1 aCopy
    let out := mask_data_store ev gen rules s2 rest
    (out.1, aCopy :: out.2)

/-!
Configuration loading, the process pipeline, and the command line.
File reading and JSON parsing are external effects; a file source is
therefore an Except: FileNotFoundError, JSONDecodeError, or the parsed
value.
-/

/-- The ways reading and parsing a JSON file can fail. -/
inductive LoadErr where
  | fileNotFound : LoadErr
  | jsonDecode : LoadErr

/-- The validation applied to each configuration entry: it must be a
dict containing the keys condition, field and masking_type. -/
def isValidRule : Value → Bool
  | .obj fields =>
    Record.has fields "condition" && Record.has fields "field" &&
      Record.has fields "masking_type"
  | _ => false

/-- ConditionalMasker.load_config: read and parse the configuration
file (any failure is logged and yields None), check that the content is
a list and that every entry is a dict with the three required keys
(any violation raises ValueError, which is caught and yields None),
and otherwise return the whole rule list. -/
def load_config (src : Except LoadErr Value) : Option (List Value) :=
  match src with
  | .error _ => none
  | .ok config =>
    match config with
    | .arr rules => if rules.all isValidRule then some rules else none
    | _ => none

/-- Extract a string attribute of a validated rule dict.  Validation
only checks that the keys exist, not that the values are strings; a
non-string value makes eval raise a TypeError (condition) or makes the
membership test false (field), both of which skip the rule, so the
empty-string default is only reached on rules that can never fire
meaningfully. -/
def asString (v : Option Value) : String :=
  match v with
  | some (.str s) => s
  | _ => ""

/-- The view of a validated configuration entry as a Rule. -/
def toRule (v : Value) : Rule :=
  match v with
  | .obj fields =>
    Rule.mk (asString (Record.get fields "condition"))
      (asString (Record.get fields "field"))
      (asString (Record.get fields "masking_type"))
  | _ => Rule.mk "" "" ""

/-- Whether a parsed JSON value supports .copy(), i.e. whether
masked_record = record.copy() succeeds on it: dicts and lists do,
strings, numbers, booleans and null raise AttributeError, which
escapes mask_data and aborts the run. -/
def copyable : Value → Bool
  | .obj _ => true
  | .arr _ => true
  | _ => false

/-- mask_data over the raw parsed input list: dict elements are masked
as records, list elements are shallow-copied and pass through unchanged
(eval rejects a non-dict local scope, so every rule is skipped on
them), and any other element raises AttributeError on .copy(), which
aborts the whole call. -/
def mask_data_values (ev : Evaluator) (gen : Generator)
    (rules : List Rule) (elems : List Value) : Option (List Value) :=
  if elems.all copyable then
    some (elems.map (fun e =>
      match e with
      | .obj fields => .obj (maskRecord ev gen rules fields)
      | other => other))
  else none

/-- ConditionalMasker.process_data: abort (producing no output) when
configuration loading failed; read and parse the input file (failure is
logged, no output); require the parsed input to be a list (else logged,
no output); mask the data; the masked list is what gets written to the
output file. -/
def process_data (ev : Evaluator) (gen : Generator)
    (configSrc inputSrc : Except LoadErr Value) : Option Value :=
  match load_config configSrc with
  | none => none
  | some config =>
    match inputSrc with
    | .error _ => none
    | .ok data =>
      match data with
      | .arr records =>
        match mask_data_values ev gen (config.map toRule) records with
        | some masked => some (.arr masked)
        | none => none
      | _ => none

/-- The extension check applied to each of the three paths:
path.lower().endswith of the literal .json, stated over the character
list of the path so that it evaluates by reduction. -/
def endsWithJson (path : String) : Bool :=
  List.isSuffixOf ".json".data (path.data.map Char.toLower)

/-- The main entry point: validate the three file extensions, exiting
with status 1 at the first failure; otherwise construct the masker and
run process_data, whose failures are all caught and logged, and return
normally (exit status 0) whether or not output was produced.  The
result is the process exit status paired with the output written, if
any. -/
def main (config_file input_file output_file : String)
    (ev : Evaluator) (gen : Generator)
    (configSrc inputSrc : Except LoadErr Value) : Nat × Option Value :=
  if ¬ endsWithJson config_file then (1, none)
  else if ¬ endsWithJson input_file then (1, none)
  else if ¬ endsWithJson output_file then (1, none)
  else (0, process_data ev gen configSrc inputSrc)

/-! Basic facts about record lookup and Python-dict assignment. -/

theorem Record.get_set_self (rec : Record) (key : String) (v : Value) :
    Record.get (Record.set rec key v) key = some v := by
  induction rec with
  | nil => simp [Record.set, Record.get]
  | cons p rest ih =>
    obtain ⟨k, w⟩ := p
    by_cases hk : k = key
    · simp [Record.set, Record.get, hk]
    · simp [Record.set, Record.get, hk, ih]

theorem Record.get_set_ne (rec : Record) (key k : String) (v : Value)
    (h : k ≠ key) :
    Record.get (Record.set rec key v) k = Record.get rec k := by
  have hky : ¬ key = k := fun hkk => h hkk.symm
  induction rec with
  | nil => simp [Record.set, Record.get, hky]
  | cons p rest ih =>
    obtain ⟨k', w⟩ := p
    by_cases hk' : k' = key
    · have h2 : ¬ k' = k := by rw [hk']; exact hky
      simp [Record.set, Record.get, hk', hky, h2]
    · by_cases hk2 : k' = k
      · subst hk2
        simp [Record.set, Record.get, hk']
      · simp [Record.set, Record.get, hk', hk2, ih]

theorem Record.has_set (rec : Record) (key : String) (v : Value)
    (h : Record.has rec key = true) (k : String) :
    Record.has (Record.set rec key v) k = Record.has rec k := by
  induction rec with
  | nil => simp [Record.has, Record.get] at h
  | cons p rest ih =>
    obtain ⟨k', w⟩ := p
    by_cases hk' : k' = key
    · subst hk'
      by_cases hk2 : k' = k
      · simp [Record.set, Record.has, Record.get, hk2]
      · simp [Record.set, Record.has, Record.get, hk2]
    · have hrest : Record.has rest key = true := by
        simpa [Record.has, Record.get, hk'] using h
      by_cases hk2 : k' = k
      · subst hk2
        simp [Record.set, Record.has, Record.get, hk']
      · simp only [Record.set, if_neg hk']
        simpa [Record.has, Record.get, hk2] using ih hrest

/-! Facts about one iteration of the rule loop. -/

theorem applyRule_get_ne (ev : Evaluator) (gen : Generator)
    (rec : Record) (rule : Rule) (k : String) (h : rule.field ≠ k) :
    Record.get (applyRule ev gen rec rule) k = Record.get rec k := by
  unfold applyRule
  cases hev : ev rule.condition rec with
  | error e => rfl
  | ok v =>
    by_cases ht : truthy v
    · by_cases hh : Record.has rec rule.field
      · simp only [ht, if_true, hh]
        exact Record.get_set_ne rec rule.field k _ (fun hk => h hk.symm)
      · simp [ht, hh]
    · simp [ht]

theorem applyRule_not_fires (ev : Evaluator) (gen : Generator)
    (rec : Record) (rule : Rule) (h : ¬ fires ev rule rec) :
    applyRule ev gen rec rule = rec := by
  unfold applyRule
  cases hev : ev rule.condition rec with
  | error e => rfl
  | ok v =>
    by_cases ht : truthy v
    · by_cases hh : Record.has rec rule.field
      · exact absurd ⟨v, hev, ht, hh⟩ h
      · simp [ht, hh]
    · simp [ht]

theorem applyRule_fires_get (ev : Evaluator) (gen : Generator)
    (rec : Record) (rule : Rule) (h : fires ev rule rec) :
    Record.get (applyRule ev gen rec rule) rule.field
      = some (.str (apply_masking gen rule.masking_type)) := by
  obtain ⟨v, hev, ht, hh⟩ := h
  unfold applyRule
  rw [hev]
  simp only [ht, if_true, hh]
  exact Record.get_set_self rec rule.field _

theorem applyRule_has (ev : Evaluator) (gen : Generator)
    (rec : Record) (rule : Rule) (k : String) :
    Record.has (applyRule ev gen rec rule) k = Record.has rec k := by
  unfold applyRule
  cases hev : ev rule.condition rec with
  | error e => rfl
  | ok v =>
    by_cases ht : truthy v
    · by_cases hh : Record.has rec rule.field
      · simp only [ht, if_true, hh]
        exact Record.has_set rec rule.field _ hh k
      · simp [ht, hh]
    · simp [ht]

/-! Facts about the full rule loop. -/

theorem maskRecord_nil (ev : Evaluator) (gen : Generator) (rec : Record) :
    maskRecord ev gen [] rec = rec := rfl

theorem maskRecord_cons (ev : Evaluator) (gen : Generator)
    (r : Rule) (rs : List Rule) (rec : Record) :
    maskRecord ev gen (r :: rs) rec
      = maskRecord ev gen rs (applyRule ev gen rec r) := rfl

theorem maskRecord_append (ev : Evaluator) (gen : Generator)
    (rs1 rs2 : List Rule) (rec : Record) :
    maskRecord ev gen (rs1 ++ rs2) rec
      = maskRecord ev gen rs2 (maskRecord ev gen rs1 rec) :=
  List.foldl_append _ _ _ _

theorem maskRecord_has (ev : Evaluator) (gen : Generator)
    (rules : List Rule) (rec : Record) (k : String) :
    Record.has (maskRecord ev gen rules rec) k = Record.has rec k := by
  induction rules generalizing rec with
  | nil => rfl
  | cons r rs ih =>
    rw [maskRecord_cons, ih, applyRule_has]

/-- C1: mask_data maps each input record to exactly one output record,
in order: the output has the input's length and its i-th element is the
masked i-th input record. -/
theorem mask_data_length_and_order (ev : Evaluator) (gen : Generator)
    (rules : List Rule) (data : List Record) :
    (mask_data ev gen rules data).length = data.length ∧
    ∀ i : Nat, (mask_data ev gen rules data)[i]?
      = (data[i]?).map (maskRecord ev gen rules) := by
  refine ⟨List.length_map _ _, fun i => ?_⟩
  simp [mask_data]

/-- C6: apply_masking is total by construction and returns the MASKED
sentinel on every unrecognised masking type and the MASKED_ERROR
sentinel whenever the generator of a recognised type fails
internally. -/
theorem apply_masking_sentinels (gen : Generator) (mt : String) :
    (mt ∉ recognized_masking_types → apply_masking gen mt = "MASKED") ∧
    (∀ e : String, mt ∈ recognized_masking_types → gen mt = .error e →
      apply_masking gen mt = "MASKED_ERROR") := by
  constructor
  · intro h
    simp only [recognized_masking_types, List.mem_cons,
      List.not_mem_nil, or_false] at h
    push_neg at h
    obtain ⟨h1, h2, h3, h4, h5, h6, h7, h8, h9, h10, h11⟩ := h
    simp [apply_masking, h1, h2, h3, h4, h5, h6, h7, h8, h9, h10, h11]
  · intro e hmem hgen
    simp only [recognized_masking_types, List.mem_cons,
      List.not_mem_nil, or_false] at hmem
    rcases hmem with h|h|h|h|h|h|h|h|h|h|h <;>
      subst h <;> simp [apply_masking, genOrError, hgen]

/-- Witness for C6 at concrete inputs: the unknown type zzz yields
MASKED, and a failing generator on the recognised type ssn yields
MASKED_ERROR. -/
theorem apply_masking_sentinels_witness :
    ("zzz" ∉ recognized_masking_types ∧
      apply_masking (fun _ => .error "boom") "zzz" = "MASKED") ∧
    ("ssn" ∈ recognized_masking_types ∧
      apply_masking (fun _ => .error "boom") "ssn" = "MASKED_ERROR") := by
  refine ⟨⟨by decide, ?_⟩, ⟨by decide, ?_⟩⟩
  · exact (apply_masking_sentinels (fun _ => .error "boom") "zzz").1 (by decide)
  · exact (apply_masking_sentinels (fun _ => .error "boom") "ssn").2 "boom"
      (by decide) rfl

theorem maskRecord_get_of_not_fires (ev : Evaluator) (gen : Generator) :
    ∀ (rules : List Rule) (rec : Record) (k : String),
    (∀ pre rule post, rules = pre ++ rule :: post → rule.field = k →
      ¬ fires ev rule (maskRecord ev gen pre rec)) →
    Record.get (maskRecord ev gen rules rec) k = Record.get rec k := by
  intro rules
  induction rules with
  | nil => intro rec k _; rfl
  | cons r rs ih =>
    intro rec k h
    have hstep : Record.get (applyRule ev gen rec r) k = Record.get rec k := by
      by_cases hf : r.field = k
      · have hnf : ¬ fires ev r rec := by
          simpa [maskRecord_nil] using h [] r rs rfl hf
        rw [applyRule_not_fires ev gen rec r hnf]
      · exact applyRule_get_ne ev gen rec r k hf
    have htail : ∀ pre rule post, rs = pre ++ rule :: post → rule.field = k →
        ¬ fires ev rule (maskRecord ev gen pre (applyRule ev gen rec r)) := by
      intro pre rule post hpre hfield
      have := h (r :: pre) rule post (by rw [hpre]; rfl) hfield
      simpa [maskRecord_cons] using this
    rw [maskRecord_cons, ih (applyRule ev gen rec r) k htail, hstep]

/-- C2: masking has no effect outside the fields actually substituted:
the output record has exactly the input's fields (nothing is created),
and any field that is not the target of a rule that fired at its point
in the rule loop (condition truthy and field present on the working
copy there, so in particular any field targeted only by rules whose
conditions were false) keeps its original value. -/
theorem maskRecord_frame (ev : Evaluator) (gen : Generator)
    (rules : List Rule) (rec : Record) (k : String) :
    Record.has (maskRecord ev gen rules rec) k = Record.has rec k ∧
    (∀ (rule : Rule) (v : Value), ev rule.condition rec = .ok v →
      truthy v = false → applyRule ev gen rec rule = rec) ∧
    ((∀ pre rule post, rules = pre ++ rule :: post → rule.field = k →
        ¬ fires ev rule (maskRecord ev gen pre rec)) →
      Record.get (maskRecord ev gen rules rec) k = Record.get rec k) := by
  refine ⟨maskRecord_has ev gen rules rec k, ?_,
    maskRecord_get_of_not_fires ev gen rules rec k⟩
  intro rule v hev ht
  apply applyRule_not_fires
  rintro ⟨v', hv', ht', _⟩
  rw [hev] at hv'
  injection hv' with h'
  subst h'
  rw [ht] at ht'
  exact Bool.noConfusion ht'

/-- Witness for C2 at concrete inputs: with an evaluator whose every
condition raises, a rule targeting the email field leaves it untouched,
and a rule whose condition evaluates to false leaves the whole record
unchanged. -/
theorem maskRecord_frame_witness :
    Record.get
      (maskRecord (fun _ _ => Except.error EvalErr.nameError)
        (fun _ => Except.ok "X")
        [Rule.mk "cond" "email" "email"]
        [("email", Value.str "a@x.com")]) "email"
      = some (Value.str "a@x.com") ∧
    applyRule (fun _ _ => Except.ok (Value.bool false))
      (fun _ => Except.ok "X") [("email", Value.str "a@x.com")]
      (Rule.mk "cond" "email" "email")
      = [("email", Value.str "a@x.com")] := by
  constructor
  · have h := (maskRecord_frame (fun _ _ => Except.error EvalErr.nameError)
      (fun _ => Except.ok "X") [Rule.mk "cond" "email" "email"]
      [("email", Value.str "a@x.com")] "email").2.2 ?hyp
    · rw [h]; rfl
    case hyp =>
      intro pre rule post _ _ hfires
      obtain ⟨v, hv, _, _⟩ := hfires
      exact Except.noConfusion hv
  · exact (maskRecord_frame (fun _ _ => Except.ok (Value.bool false))
      (fun _ => Except.ok "X") [Rule.mk "cond" "email" "email"]
      [("email", Value.str "a@x.com")] "email").2.1
      (Rule.mk "cond" "email" "email") (Value.bool false) rfl rfl

/-- C3: a rule whose condition evaluation raises is skipped for that
record only: the record is unchanged by that rule, the remaining rules
still run against it, and mask_data still processes every later record
(the loop never aborts). -/
theorem failing_condition_skips_rule (ev : Evaluator) (gen : Generator)
    (rec : Record) (rule : Rule) (e : EvalErr) (rules : List Rule)
    (h : ev rule.condition rec = .error e) :
    applyRule ev gen rec rule = rec ∧
    maskRecord ev gen (rule :: rules) rec = maskRecord ev gen rules rec ∧
    ∀ rest : List Record,
      mask_data ev gen (rule :: rules) (rec :: rest)
        = maskRecord ev gen (rule :: rules) rec
            :: mask_data ev gen (rule :: rules) rest := by
  have h1 : applyRule ev gen rec rule = rec := by
    unfold applyRule
    rw [h]
  exact ⟨h1, by rw [maskRecord_cons, h1], fun rest => rfl⟩

/-- Witness for C3 at a concrete input: a condition referencing a
missing field (a NameError) leaves the record unchanged. -/
theorem failing_condition_skips_rule_witness :
    applyRule (fun _ _ => Except.error EvalErr.nameError)
      (fun _ => Except.ok "X") [("name", Value.str "A")]
      (Rule.mk "missing == 1" "name" "name")
      = [("name", Value.str "A")] :=
  (failing_condition_skips_rule (fun _ _ => Except.error EvalErr.nameError)
    (fun _ => Except.ok "X") [("name", Value.str "A")]
    (Rule.mk "missing == 1" "name" "name") EvalErr.nameError [] rfl).1

/-- C4: when an earlier and a later rule both target the same field and
both fire at their point in the rule loop, the later rule's generated
value is the one left in the final output record. -/
theorem later_rule_wins (ev : Evaluator) (gen : Generator)
    (pre1 : List Rule) (r1 : Rule) (pre2 : List Rule) (r2 : Rule)
    (rec : Record) (k : String)
    (_hf1 : r1.field = k) (hf2 : r2.field = k)
    (_hfires1 : fires ev r1 (maskRecord ev gen pre1 rec))
    (hfires2 : fires ev r2 (maskRecord ev gen (pre1 ++ r1 :: pre2) rec)) :
    Record.get (maskRecord ev gen (pre1 ++ r1 :: pre2 ++ [r2]) rec) k
      = some (Value.str (apply_masking gen r2.masking_type)) := by
  have hsplit : pre1 ++ r1 :: pre2 ++ [r2] = (pre1 ++ r1 :: pre2) ++ [r2] := by
    simp
  rw [hsplit, maskRecord_append]
  have h := applyRule_fires_get ev gen
    (maskRecord ev gen (pre1 ++ r1 :: pre2) rec) r2 hfires2
  rw [hf2] at h
  simpa [maskRecord] using h

/-- Witness for C4 at a concrete input: two always-true rules both
target the email field; the final value is the second rule's generated
value (the generator returns its masking type, so the two values are
distinguishable). -/
theorem later_rule_wins_witness :
    Record.get
      (maskRecord (fun _ _ => Except.ok (Value.bool true))
        (fun t => Except.ok t)
        [Rule.mk "True" "email" "name", Rule.mk "True" "email" "email"]
        [("email", Value.str "a@x.com")]) "email"
      = some (Value.str "email") := by
  have h := later_rule_wins (fun _ _ => Except.ok (Value.bool true))
    (fun t => Except.ok t) [] (Rule.mk "True" "email" "name") []
    (Rule.mk "True" "email" "email") [("email", Value.str "a@x.com")]
    "email" rfl rfl ⟨Value.bool true, rfl, rfl, rfl⟩
    ⟨Value.bool true, rfl, rfl, rfl⟩
  simpa using h

/-- C5: each rule's condition is evaluated against the current working
copy, after the substitutions of all earlier rules of the rule set:
when the condition is truthy on that copy and the target field exists
there, the run continues from the copy with the field replaced. -/
theorem condition_sees_current_copy (ev : Evaluator) (gen : Generator)
    (pre : List Rule) (r : Rule) (post : List Rule) (rec : Record)
    (v : Value)
    (hev : ev r.condition (maskRecord ev gen pre rec) = .ok v)
    (ht : truthy v = true)
    (hh : Record.has (maskRecord ev gen pre rec) r.field = true) :
    maskRecord ev gen (pre ++ r :: post) rec
      = maskRecord ev gen post
          (Record.set (maskRecord ev gen pre rec) r.field
            (Value.str (apply_masking gen r.masking_type))) := by
  have h1 : pre ++ r :: post = (pre ++ [r]) ++ post := by simp
  rw [h1, maskRecord_append, maskRecord_append]
  have h2 : maskRecord ev gen [r] (maskRecord ev gen pre rec)
      = Record.set (maskRecord ev gen pre rec) r.field
          (Value.str (apply_masking gen r.masking_type)) := by
    show applyRule ev gen (maskRecord ev gen pre rec) r = _
    unfold applyRule
    rw [hev]
    simp [ht, hh]
  rw [h2]

/-- Witness for C5 at a concrete input: a first rule replaces the name
field with the generated value X; the second rule's condition asks
whether name equals X, which is false on the original record but true
on the working copy, so the second rule fires and the email field is
replaced too. -/
theorem condition_sees_current_copy_witness :
    maskRecord
      (fun c rec => if c = "always" then Except.ok (Value.bool true)
        else match Record.get rec "name" with
          | some (Value.str s) => Except.ok (Value.bool (s == "X"))
          | _ => Except.ok (Value.bool false))
      (fun _ => Except.ok "X")
      [Rule.mk "always" "name" "name", Rule.mk "check" "email" "email"]
      [("name", Value.str "John"), ("email", Value.str "j@x.com")]
      = [("name", Value.str "X"), ("email", Value.str "X")] := by
  have h := condition_sees_current_copy
    (fun c rec => if c = "always" then Except.ok (Value.bool true)
      else match Record.get rec "name" with
        | some (Value.str s) => Except.ok (Value.bool (s == "X"))
        | _ => Except.ok (Value.bool false))
    (fun _ => Except.ok "X")
    [Rule.mk "always" "name" "name"] (Rule.mk "check" "email" "email") []
    [("name", Value.str "John"), ("email", Value.str "j@x.com")]
    (Value.bool true) rfl rfl rfl
  rw [show [Rule.mk "always" "name" "name", Rule.mk "check" "email" "email"]
      = [Rule.mk "always" "name" "name"]
          ++ Rule.mk "check" "email" "email" :: [] from rfl, h]
  rfl

theorem applyRule_get_cases (ev : Evaluator) (gen : Generator)
    (rec : Record) (rule : Rule) (k : String) :
    Record.get (applyRule ev gen rec rule) k = Record.get rec k ∨
    Record.get (applyRule ev gen rec rule) k
      = some (Value.str (apply_masking gen rule.masking_type)) := by
  by_cases hf : rule.field = k
  · by_cases hfire : fires ev rule rec
    · right
      have h := applyRule_fires_get ev gen rec rule hfire
      rwa [hf] at h
    · left
      rw [applyRule_not_fires ev gen rec rule hfire]
  · left
    exact applyRule_get_ne ev gen rec rule k hf

theorem maskRecord_preserves_str (ev : Evaluator) (gen : Generator)
    (rules : List Rule) :
    ∀ (rec : Record) (k : String),
    (∃ s, Record.get rec k = some (Value.str s)) →
    ∃ s, Record.get (maskRecord ev gen rules rec) k
      = some (Value.str s) := by
  induction rules with
  | nil => intro rec k h; exact h
  | cons r rs ih =>
    intro rec k h
    rw [maskRecord_cons]
    apply ih
    rcases applyRule_get_cases ev gen rec r k with hc | hc
    · obtain ⟨s, hs⟩ := h
      exact ⟨s, by rw [hc, hs]⟩
    · exact ⟨apply_masking gen r.masking_type, hc⟩

/-- C10: whenever some rule fires on a field during the rule loop, the
field's value in the final output record is a string (a generated value
or a sentinel), whatever the type of the original value. -/
theorem masked_value_is_string (ev : Evaluator) (gen : Generator)
    (pre : List Rule) (rule : Rule) (post : List Rule) (rec : Record)
    (k : String) (hf : rule.field = k)
    (hfires : fires ev rule (maskRecord ev gen pre rec)) :
    ∃ s, Record.get (maskRecord ev gen (pre ++ rule :: post) rec) k
      = some (Value.str s) := by
  have h1 : pre ++ rule :: post = (pre ++ [rule]) ++ post := by simp
  rw [h1, maskRecord_append]
  refine maskRecord_preserves_str ev gen post _ k
    ⟨apply_masking gen rule.masking_type, ?_⟩
  rw [maskRecord_append]
  have h := applyRule_fires_get ev gen (maskRecord ev gen pre rec) rule hfires
  rw [hf] at h
  simpa [maskRecord] using h

/-- Witness for C10 at a concrete input: masking the numeric age field
with an always-true condition turns its value into a string. -/
theorem masked_value_is_string_witness :
    ∃ s, Record.get
      (maskRecord (fun _ _ => Except.ok (Value.bool true))
        (fun t => Except.ok t) [Rule.mk "True" "age" "text"]
        [("age", Value.num 65)]) "age"
      = some (Value.str s) := by
  have h := masked_value_is_string (fun _ _ => Except.ok (Value.bool true))
    (fun t => Except.ok t) [] (Rule.mk "True" "age" "text") []
    [("age", Value.num 65)] "age" rfl
    ⟨Value.bool true, rfl, rfl, rfl⟩
  simpa using h

/-! Facts about the heap-level model: the rule loop writes only through
the working copy's address, so every other heap cell is untouched. -/

theorem Store.read_set_ne (s : Store) (a : Nat) (rec : Record) (i : Nat)
    (h : i ≠ a) :
    Store.read (Store.write s a rec) i = Store.read s i := by
  simp [Store.read, Store.write, List.getD, List.getElem?_set_ne (fun hh => h hh.symm)]

theorem Store.read_append_left (s : Store) (rec : Record) (i : Nat)
    (h : i < s.length) :
    Store.read (s ++ [rec]) i = Store.read s i := by
  simp [Store.read, List.getD, List.getElem?_append_left h]

theorem applyRuleStore_length (ev : Evaluator) (gen : Generator)
    (s : Store) (a : Nat) (rule : Rule) :
    (applyRuleStore ev gen s a rule).length = s.length := by
  unfold applyRuleStore
  cases hev : ev rule.condition (Store.read s a) with
  | error e => rfl
  | ok v =>
    by_cases ht : truthy v
    · by_cases hh : Record.has (Store.read s a) rule.field
      · simp [ht, hh, Store.write]
      · simp [ht, hh]
    · simp [ht]

theorem applyRuleStore_read_ne (ev : Evaluator) (gen : Generator)
    (s : Store) (a : Nat) (rule : Rule) (i : Nat) (h : i ≠ a) :
    Store.read (applyRuleStore ev gen s a rule) i = Store.read s i := by
  unfold applyRuleStore
  cases hev : ev rule.condition (Store.read s a) with
  | error e => rfl
  | ok v =>
    by_cases ht : truthy v
    · by_cases hh : Record.has (Store.read s a) rule.field
      · simp only [ht, if_true, hh]
        exact Store.read_set_ne s a _ i h
      · simp [ht, hh]
    · simp [ht]

theorem maskRecordStore_length (ev : Evaluator) (gen : Generator)
    (rules : List Rule) : ∀ (s : Store) (a : Nat),
    (maskRecordStore ev gen rules s a).length = s.length := by
  induction rules with
  | nil => intro s a; rfl
  | cons r rs ih =>
    intro s a
    show (maskRecordStore ev gen rs (applyRuleStore ev gen s a r) a).length
      = s.length
    rw [ih, applyRuleStore_length]

theorem maskRecordStore_read_ne (ev : Evaluator) (gen : Generator)
    (rules : List Rule) : ∀ (s : Store) (a i : Nat), i ≠ a →
    Store.read (maskRecordStore ev gen rules s a) i = Store.read s i := by
  induction rules with
  | nil => intro s a i _; rfl
  | cons r rs ih =>
    intro s a i h
    show Store.read (maskRecordStore ev gen rs (applyRuleStore ev gen s a r) a) i
      = Store.read s i
    rw [ih _ a i h, applyRuleStore_read_ne ev gen s a r i h]

theorem mask_data_store_cons (ev : Evaluator) (gen : Generator)
    (rules : List Rule) (s : Store) (a : Nat) (rest : List Nat) :
    mask_data_store ev gen rules s (a :: rest)
      = ((mask_data_store ev gen rules
            (maskRecordStore ev gen rules (s ++ [Store.read s a]) s.length)
            rest).1,
         s.length :: (mask_data_store ev gen rules
            (maskRecordStore ev gen rules (s ++ [Store.read s a]) s.length)
            rest).2) := rfl

theorem mask_data_store_preserves (ev : Evaluator) (gen : Generator)
    (rules : List Rule) : ∀ (addrs : List Nat) (s : Store),
    s.length ≤ (mask_data_store ev gen rules s addrs).1.length ∧
    ∀ a, a < s.length →
      Store.read (mask_data_store ev gen rules s addrs).1 a
        = Store.read s a := by
  intro addrs
  induction addrs with
  | nil => intro s; exact ⟨le_refl _, fun a _ => rfl⟩
  | cons a0 rest ih =>
    intro s
    rw [mask_data_store_cons]
    set s2 := maskRecordStore ev gen rules (s ++ [Store.read s a0]) s.length
      with hs2
    have hlen2 : s2.length = s.length + 1 := by
      rw [hs2, maskRecordStore_length]
      simp
    have hread2 : ∀ a, a < s.length → Store.read s2 a = Store.read s a := by
      intro a ha
      rw [hs2, maskRecordStore_read_ne ev gen rules _ _ a (Nat.ne_of_lt ha),
        Store.read_append_left s _ a ha]
    obtain ⟨ihlen, ihread⟩ := ih s2
    constructor
    · calc s.length ≤ s2.length := by omega
        _ ≤ _ := ihlen
    · intro a ha
      rw [ihread a (by omega), hread2 a ha]

/-- C9: mask_data never mutates the caller's records: at heap level,
every address that was valid before the call still holds exactly the
record it held before, because each substitution is written through a
freshly allocated per-record copy. -/
theorem mask_data_store_no_mutation (ev : Evaluator) (gen : Generator)
    (rules : List Rule) (s : Store) (addrs : List Nat) (a : Nat)
    (h : a < s.length) :
    Store.read (mask_data_store ev gen rules s addrs).1 a
      = Store.read s a :=
  (mask_data_store_preserves ev gen rules addrs s).2 a h

/-- Witness for C9 at a concrete input: a one-record heap with an
always-firing rule; after the call the original cell still holds the
unmasked record. -/
theorem mask_data_store_no_mutation_witness :
    Store.read (mask_data_store (fun _ _ => Except.ok (Value.bool true))
      (fun _ => Except.ok "X") [Rule.mk "True" "name" "name"]
      [[("name", Value.str "A")]] [0]).1 0
      = [("name", Value.str "A")] := by
  have h := mask_data_store_no_mutation (fun _ _ => Except.ok (Value.bool true))
    (fun _ => Except.ok "X") [Rule.mk "True" "name" "name"]
    [[("name", Value.str "A")]] [0] 0 (by decide)
  rw [h]
  rfl

/-- C7: rule-set loading is all-or-nothing: a missing or unparsable
source, a non-list configuration, or any single entry that is not a
dict with the three required keys makes load_config return none, and
then process_data produces no output for any input whatsoever (no
masking is performed from a partial rule set). -/
theorem load_failure_is_fatal (src : Except LoadErr Value)
    (h : (∃ e, src = .error e) ∨
         (∃ v, src = .ok v ∧ ∀ rules, v ≠ Value.arr rules) ∨
         (∃ rules r, src = .ok (.arr rules) ∧ r ∈ rules ∧
            isValidRule r = false)) :
    load_config src = none ∧
    ∀ (ev : Evaluator) (gen : Generator) (inputSrc : Except LoadErr Value),
      process_data ev gen src inputSrc = none := by
  have hl : load_config src = none := by
    rcases h with ⟨e, he⟩ | ⟨v, hv, hnl⟩ | ⟨rules, r, hsrc, hmem, hval⟩
    · rw [he]; rfl
    · rw [hv]
      unfold load_config
      cases v with
      | arr rules => exact absurd rfl (hnl rules)
      | null => rfl
      | bool b => rfl
      | num n => rfl
      | str s => rfl
      | obj fields => rfl
    · rw [hsrc]
      unfold load_config
      cases hall : rules.all isValidRule with
      | false => simp only [load_config, hall]; rfl
      | true =>
        have := List.all_eq_true.mp hall r hmem
        rw [hval] at this
        exact absurd this (by simp)
  refine ⟨hl, fun ev gen inputSrc => ?_⟩
  simp [process_data, hl]

/-- Witness for C7 at a concrete input: an unparsable configuration
source loads as none and yields no output even on a well-formed input
list. -/
theorem load_failure_is_fatal_witness :
    load_config (Except.error LoadErr.jsonDecode) = none ∧
    process_data (fun _ _ => Except.ok (Value.bool true))
      (fun _ => Except.ok "X") (Except.error LoadErr.jsonDecode)
      (Except.ok (Value.arr [Value.obj [("name", Value.str "A")]]))
      = none := by
  have h := load_failure_is_fatal (Except.error LoadErr.jsonDecode)
    (Or.inl ⟨LoadErr.jsonDecode, rfl⟩)
  exact ⟨h.1, h.2 _ _ _⟩

/-- C8 counterexample: all three paths carry the .json extension but
the configuration file is malformed JSON (a fatal load-phase failure);
the claim demands a non-zero exit status, yet main returns normally
with exit status 0 — the failure is only logged and no output is
written. -/
theorem main_exit_status_counterexample :
    (main "config.json" "input.json" "output.json"
      (fun _ _ => Except.ok (Value.bool true)) (fun _ => Except.ok "X")
      (Except.error LoadErr.jsonDecode)
      (Except.ok (Value.arr [Value.obj [("name", Value.str "A")]]))).1
      = 0 ∧
    (main "config.json" "input.json" "output.json"
      (fun _ _ => Except.ok (Value.bool true)) (fun _ => Except.ok "X")
      (Except.error LoadErr.jsonDecode)
      (Except.ok (Value.arr [Value.obj [("name", Value.str "A")]]))).2
      = none := by
  constructor <;> rfl

/-- C8 amended: the process exit status is non-zero exactly when one of
the three supplied paths lacks the .json extension; parse failures and
rule-set shape-validation failures are logged and produce no output,
but the process still exits with status 0. -/
theorem main_exit_status (config_file input_file output_file : String)
    (ev : Evaluator) (gen : Generator)
    (configSrc inputSrc : Except LoadErr Value) :
    (main config_file input_file output_file ev gen configSrc inputSrc).1
      = (if endsWithJson config_file && endsWithJson input_file &&
            endsWithJson output_file then 0 else 1) ∧
    (main config_file input_file output_file ev gen configSrc inputSrc).2
      = (if endsWithJson config_file && endsWithJson input_file &&
            endsWithJson output_file
         then process_data ev gen configSrc inputSrc else none) := by
  unfold main
  by_cases h1 : endsWithJson config_file <;>
    by_cases h2 : endsWithJson input_file <;>
      by_cases h3 : endsWithJson output_file <;>
        simp [h1, h2, h3]

end DataMasker
